import Mathlib

/-!
Shallow embedding of the image-router backend
(`src/backend/routers/image.ts`): the in-memory job registry
(credits, pending job queue with scheduled completion timers, completed
jobs, cancelled jobs) and the `/generate` proxy handler.

JavaScript query parameters and body fields are modelled as `Option`s
(`none` = the key is absent / `undefined`); JS truthiness checks
(`!prompt`, `!width`, `data || message`) are modelled by explicit
falsiness functions on those options.  `setTimeout`/`clearTimeout` is
modelled by a list of scheduled timers carried in the state: enqueue
appends the timer (capturing the job id and prompt, as the closure in
the source does), `clearTimeout` removes it, and a timer can fire only
while it is in the list, at most once.
-/

set_option autoImplicit false

namespace ImageRouter

/-- JS truthiness of an optional string value: `undefined` and `""` are
falsy, every other string is truthy. -/
def jsTruthyStr : Option String → Bool
  | none => false
  | some s => s ≠ ""

/-- JS truthiness of an optional numeric value: `undefined` and `0` are
falsy. -/
def jsTruthyInt : Option Int → Bool
  | none => false
  | some n => n ≠ 0

/-- One size variant of a produced image (`{width, height, url}`). -/
structure ImageVariant where
  width : Nat
  height : Nat
  url : String
  deriving DecidableEq, Repr

/-- The `ImageResponse` interface from the source: fullsize and thumbnail descriptors
plus an optional label. -/
structure ImageResponse where
  fullsize : ImageVariant
  thumbnail : ImageVariant
  label : Option String := none
  deriving DecidableEq, Repr

/-- The two placeholder images the completion callback stores
(`placeholderImages` in the source; labels are absent until completion
stamps them). -/
def placeholderImages : List ImageResponse :=
  [ { fullsize :=
        { width := 1280, height := 853,
          url := "https://images.pexels.com/photos/1145720/pexels-photo-1145720.jpeg?auto=compress&cs=tinysrgb&w=1280&h=853&dpr=2" },
      thumbnail :=
        { width := 640, height := 427,
          url := "https://images.pexels.com/photos/1145720/pexels-photo-1145720.jpeg?auto=compress&cs=tinysrgb&w=640&h=427&dpr=2" } },
    { fullsize :=
        { width := 1280, height := 853,
          url := "https://images.pexels.com/photos/4010108/pexels-photo-4010108.jpeg?auto=compress&cs=tinysrgb&w=1280&h=863&dpr=2" },
      thumbnail :=
        { width := 640, height := 427,
          url := "https://images.pexels.com/photos/4010108/pexels-photo-4010108.jpeg?auto=compress&cs=tinysrgb&w=640&h=427&dpr=2" } } ]

/-- A pending job-queue entry: `{jobId, prompt, timeoutId}`.  The
`timeoutId` handle is represented by the (jobId, prompt) pair the
timer's closure captured, stored in `RegState.timers`. -/
structure PendingJob where
  jobId : String
  prompt : String
  deriving DecidableEq, Repr

/-- The mutable module state of the router: `jobQueue`, `completedJobs`
(a string-keyed record, modelled as an association list with unique
keys maintained by `assocSet`), `cancelledJobs`, the `credits` counter,
and the set of scheduled, not-yet-fired, not-cleared timers. -/
structure RegState where
  jobQueue : List PendingJob
  completedJobs : List (String × List ImageResponse)
  cancelledJobs : List String
  credits : Int
  timers : List PendingJob
  deriving DecidableEq, Repr

/-- The state at module initialisation: empty collections,
`credits = 10`. -/
def initState : RegState :=
  { jobQueue := [], completedJobs := [], cancelledJobs := [],
    credits := 10, timers := [] }

/-- The `CREDITS_IN_BUNDLE` constant from the source. -/
def CREDITS_IN_BUNDLE : Int := 10

/-- JS object assignment `rec[k] = v`: replace the value at an existing
key, else append the new binding. -/
def assocSet (k : String) (v : List ImageResponse) :
    List (String × List ImageResponse) → List (String × List ImageResponse)
  | [] => [(k, v)]
  | (k', v') :: rest =>
    if k' = k then (k, v) :: rest else (k', v') :: assocSet k v rest

/-- Ids currently in the pending queue. -/
def pendingIds (s : RegState) : List String := s.jobQueue.map (·.jobId)

/-- Keys of the completed-jobs record. -/
def completedIds (s : RegState) : List String := s.completedJobs.map (·.1)

/-- Handler of `GET /api/purchase-credits`: `credits += CREDITS_IN_BUNDLE`, respond
200 `{credits}`.  Result: (new state, (HTTP status, reported credits)). -/
def purchaseH (s : RegState) : RegState × Nat × Int :=
  ({ s with credits := s.credits + CREDITS_IN_BUNDLE },
   200, s.credits + CREDITS_IN_BUNDLE)

/-- Responses of the enqueue handler. -/
inductive EnqueueResp where
  | missingPrompt
  | noCredits
  | queued (jobId : String)
  deriving DecidableEq, Repr

/-- HTTP status of an enqueue response. -/
def EnqueueResp.httpStatus : EnqueueResp → Nat
  | .missingPrompt => 400
  | .noCredits => 403
  | .queued _ => 200

/-- Handler of `GET /api/queue-image-generation?prompt=`: reject falsy prompt
(400), reject `credits <= 0` (403); otherwise push the pending entry
and schedule the completion timer.  The id produced by `generateJobId`
(`Math.random().toString(36).substring(2, 15)`) is nondeterministic, so
it is an argument `newId`. -/
def enqueueH (prompt : Option String) (newId : String) (s : RegState) :
    RegState × EnqueueResp :=
  if !(jsTruthyStr prompt) then (s, .missingPrompt)
  else
    match prompt with
    | none => (s, .missingPrompt)
    | some p =>
      if s.credits ≤ 0 then (s, .noCredits)
      else
        ({ s with
            jobQueue := s.jobQueue ++ [⟨newId, p⟩],
            timers := s.timers ++ [⟨newId, p⟩] },
         .queued newId)

/-- The image list the completion callback stores:
`placeholderImages.map((img) => ({...img, label: prompt}))`. -/
def labelledImages (prompt : String) : List ImageResponse :=
  placeholderImages.map (fun img => { img with label := some prompt })

/-- The body of the `setTimeout` callback scheduled by enqueue, with
the captured `jobId` and `prompt`: if the id is still in the queue
(`findIndex !== -1`), splice it out, store the two placeholder images
stamped with the prompt as `label` under `completedJobs[jobId]`, and
debit one credit; otherwise do nothing. -/
def fireCallback (jobId prompt : String) (s : RegState) : RegState :=
  if s.jobQueue.any (fun job => job.jobId = jobId) then
    { s with
        jobQueue := s.jobQueue.eraseP (fun job => job.jobId = jobId),
        completedJobs := assocSet jobId (labelledImages prompt) s.completedJobs,
        credits := s.credits - 1 }
  else s

/-- A scheduled timer fires: only a timer still in `timers` can fire,
it is consumed, and its callback runs. -/
def fireH (jobId prompt : String) (s : RegState) : RegState :=
  if (⟨jobId, prompt⟩ : PendingJob) ∈ s.timers then
    fireCallback jobId prompt
      { s with timers := s.timers.erase ⟨jobId, prompt⟩ }
  else s

/-- Property names a plain JS object literal inherits from
`Object.prototype`; reading any of them on `{}` yields a truthy value
(a function, or an object for the `__proto__` accessor). -/
def objectProtoKeys : List String :=
  [ "constructor", "hasOwnProperty", "isPrototypeOf", "propertyIsEnumerable",
    "toLocaleString", "toString", "valueOf", "__defineGetter__",
    "__defineSetter__", "__lookupGetter__", "__lookupSetter__", "__proto__" ]

/-- Result of the JS property read `completedJobs[jobId]`: an own key
yields the stored image list; failing that the read continues on the
prototype chain, where the `Object.prototype` members are found
(truthy, but not a stored image list); any other key reads
`undefined` (falsy).

Note the completion callback's write `completedJobs[jobId] = ...` is an
ordinary own-property creation for every id `generateJobId` can emit
(base-36, so the only inherited name it can collide with is
`constructor`, whose write shadows normally; it can never emit
`__proto__`, whose write would instead reassign the prototype), so
`assocSet` models the write faithfully. -/
inductive PropRead where
  | own (imgs : List ImageResponse)
  | inherited
  | absent
  deriving DecidableEq, Repr

/-- The property read itself. -/
def readProp (j : String) (l : List (String × List ImageResponse)) : PropRead :=
  match l.lookup j with
  | some imgs => .own imgs
  | none => if j ∈ objectProtoKeys then .inherited else .absent

/-- Responses of the status handler.  `completedInherited` is the 200
`completed` answer produced when `completedJobs[jobId]` hits an
inherited `Object.prototype` member: the `images` field of the JSON
body is then that inherited value, not a stored image list. -/
inductive StatusResp where
  | missingJobId
  | completed (images : List ImageResponse) (credits : Int)
  | completedInherited (credits : Int)
  | processing
  | cancelled
  | notFound
  deriving DecidableEq, Repr

/-- HTTP status of a status response. -/
def StatusResp.httpStatus : StatusResp → Nat
  | .missingJobId => 400
  | .completed _ _ => 200
  | .completedInherited _ => 200
  | .processing => 200
  | .cancelled => 200
  | .notFound => 404

/-- Handler of `GET /api/job-status?jobId=`: falsy id → 400; then, in
the source's order: `if (completedJobs[jobId])` — a prototype-chain
property read that is truthy for own keys and for inherited
`Object.prototype` names — answers 200 `completed` with whatever the
read produced and the current credits; queue membership →
`processing`; cancelled membership → `cancelled`; otherwise 404.  The
handler performs no assignment, so the state component of the result
is the input state. -/
def statusH (jobId : Option String) (s : RegState) : RegState × StatusResp :=
  if !(jsTruthyStr jobId) then (s, .missingJobId)
  else
    match jobId with
    | none => (s, .missingJobId)
    | some j =>
      match readProp j s.completedJobs with
      | .own imgs => (s, .completed imgs s.credits)
      | .inherited => (s, .completedInherited s.credits)
      | .absent =>
        if s.jobQueue.any (fun job => job.jobId = j) then (s, .processing)
        else if s.cancelledJobs.any (fun c => c = j) then (s, .cancelled)
        else (s, .notFound)

/-- Responses of the cancel handler. -/
inductive CancelResp where
  | missingJobId
  | notFound
  | cancelledOk
  deriving DecidableEq, Repr

/-- HTTP status of a cancel response. -/
def CancelResp.httpStatus : CancelResp → Nat
  | .missingJobId => 400
  | .notFound => 404
  | .cancelledOk => 200

/-- Handler of `POST /api/job-status/cancel?jobId=`: falsy id → 400; id not in the
queue (`findIndex === -1`) → 404; otherwise splice the entry out of the
queue, `clearTimeout` its timer (remove it from `timers`), and push the
id onto `cancelledJobs`. -/
def cancelH (jobId : Option String) (s : RegState) : RegState × CancelResp :=
  if !(jsTruthyStr jobId) then (s, .missingJobId)
  else
    match jobId with
    | none => (s, .missingJobId)
    | some j =>
      match s.jobQueue.find? (fun job => job.jobId = j) with
      | none => (s, .notFound)
      | some entry =>
        ({ s with
            jobQueue := s.jobQueue.eraseP (fun job => job.jobId = j),
            timers := s.timers.erase entry,
            cancelledJobs := s.cancelledJobs ++ [j] },
         .cancelledOk)

/-- The externally triggerable events of the registry: an incoming
request on one of the four registry routes, or a scheduled timer
firing. -/
inductive Event where
  | purchase
  | enqueue (prompt : Option String) (newId : String)
  | fire (jobId prompt : String)
  | cancel (jobId : Option String)
  | status (jobId : Option String)
  deriving DecidableEq, Repr

/-- The state transition of one event (responses discarded). -/
def step (s : RegState) : Event → RegState
  | .purchase => (purchaseH s).1
  | .enqueue p j => (enqueueH p j s).1
  | .fire j p => fireH j p s
  | .cancel j => (cancelH j s).1
  | .status j => (statusH j s).1

/-- Run a sequence of events from a state. -/
def run (s : RegState) (es : List Event) : RegState := es.foldl step s

/-- The event is not an enqueue drawing the id `j`. -/
def enqAvoids (j : String) : Event → Bool
  | .enqueue _ i => i != j
  | _ => true

/-- No event of the list is an enqueue that reuses the id `j`. -/
def avoidsEnqueueOf (j : String) (es : List Event) : Bool :=
  es.all (enqAvoids j)

/-- The id `j` is fresh for state `s`: it occurs in none of the three
collections.  (`generateJobId` draws from `Math.random`, which makes
freshness probabilistic, not guaranteed; traces are classified by
whether every drawn id happened to be fresh.) -/
def freshId (j : String) (s : RegState) : Bool :=
  !(decide (j ∈ pendingIds s)) && !(decide (j ∈ completedIds s))
    && !(decide (j ∈ s.cancelledJobs))

/-- The event, if it is an enqueue, draws an id fresh for `s`. -/
def freshCheck (s : RegState) : Event → Bool
  | .enqueue _ i => freshId i s
  | _ => true

/-- A trace from `s` in which every enqueue draws an id fresh for the
state it runs in. -/
def goodTrace : RegState → List Event → Bool
  | _, [] => true
  | s, e :: es => freshCheck s e && goodTrace (step s e) es

/-- The id `j` has been diverted to the cancelled list: it is out of the
pending queue, absent from the completed record, and recorded as
cancelled. -/
def goneCancelled (j : String) (s : RegState) : Prop :=
  j ∉ pendingIds s ∧ s.completedJobs.lookup j = none ∧ j ∈ s.cancelledJobs

/-- The uniqueness invariant of the registry: within each collection
ids are distinct, and the three collections are pairwise disjoint (each
job id lives in at most one of them). -/
structure RegInv (s : RegState) : Prop where
  pendingNodup : (pendingIds s).Nodup
  completedNodup : (completedIds s).Nodup
  cancelledNodup : s.cancelledJobs.Nodup
  pendingCompleted : ∀ j ∈ pendingIds s, j ∉ completedIds s
  pendingCancelled : ∀ j ∈ pendingIds s, j ∉ s.cancelledJobs
  completedCancelled : ∀ j ∈ completedIds s, j ∉ s.cancelledJobs

/-- A trace on which `generateJobId` happens to return the same string
twice: the second enqueue reuses id `a` after the first job `a` has
completed. -/
def dupIdTrace : List Event :=
  [.enqueue (some "p") "a", .fire "a" "p", .enqueue (some "q") "a"]

/-- Eleven enqueues, all admitted while the balance is 10 (enqueue does
not debit), followed by the eleven scheduled completions. -/
def overdraftTrace : List Event :=
  [ .enqueue (some "p") "a", .enqueue (some "p") "b", .enqueue (some "p") "c",
    .enqueue (some "p") "d", .enqueue (some "p") "e", .enqueue (some "p") "f",
    .enqueue (some "p") "g", .enqueue (some "p") "h", .enqueue (some "p") "i",
    .enqueue (some "p") "j", .enqueue (some "p") "k",
    .fire "a" "p", .fire "b" "p", .fire "c" "p", .fire "d" "p",
    .fire "e" "p", .fire "f" "p", .fire "g" "p", .fire "h" "p",
    .fire "i" "p", .fire "j" "p", .fire "k" "p" ]

/-- A sample registry state exercising all three collections at once:
job `a` completed, job `b` pending (timer scheduled), job `c`
cancelled. -/
def sampleState : RegState :=
  { jobQueue := [⟨"b", "p"⟩],
    completedJobs := [("a", labelledImages "sunset")],
    cancelledJobs := ["c"], credits := 9, timers := [⟨"b", "p"⟩] }

/-- The state right after one enqueue of prompt `p` under id `a` from
the initial state: one pending job with its scheduled timer. -/
def oneJobState : RegState :=
  { jobQueue := [⟨"a", "p"⟩], completedJobs := [], cancelledJobs := [],
    credits := 10, timers := [⟨"a", "p"⟩] }

/-- An empty registry whose credit balance has been driven to 0. -/
def zeroCreditState : RegState :=
  { jobQueue := [], completedJobs := [], cancelledJobs := [],
    credits := 0, timers := [] }

/-! ### The `POST /generate` proxy handler -/

/-- A JSON-ish value appearing in a response body field. -/
inductive JVal where
  | str (s : String)
  | num (n : Int)
  | boolean (b : Bool)
  | jnull
  deriving DecidableEq, Repr

/-- JS truthiness of a `JVal`: `""`, `0`, `false` and `null` are falsy. -/
def JVal.jsTruthy : JVal → Bool
  | .str s => s ≠ ""
  | .num n => n ≠ 0
  | .boolean b => b
  | .jnull => false

/-- The JS `a || b` fallback used for `forwardErr.response?.data ||
forwardErr.message`: the upstream error payload when it exists and is
truthy, otherwise the error message. -/
def jsOrElse (payload : Option JVal) (message : String) : JVal :=
  match payload with
  | some v => if v.jsTruthy then v else .str message
  | none => .str message

/-- Outcome of the single outbound `axios.post` to
`{BACKEND_URL}/agent/command`: a 2xx response with its data, or a
failure (network error, timeout, or a non-2xx response, which axios
raises as an error carrying the optional response payload and a
message). -/
inductive Upstream where
  | ok (data : JVal)
  | fail (respData : Option JVal) (message : String)
  deriving DecidableEq, Repr

/-- The parsed `req.body` fields destructured by the handler; `none`
means the key is absent. -/
structure GenReq where
  prompt : Option String
  width : Option Int
  height : Option Int
  deriving DecidableEq, Repr

/-- Result of the generate handler: HTTP status, JSON body as a field
list, and how many outbound calls to the MCP service were made. -/
structure GenResult where
  status : Nat
  body : List (String × JVal)
  attempts : Nat
  deriving DecidableEq, Repr

/-- Handler of `POST /generate` (in `src/backend/routers/image.ts`):
`if (!prompt || !width || !height)` → 400 with a missing-fields error
and no outbound call; otherwise exactly one `axios.post`, whose success
yields 200 `{success: true, message, forwardResponse}` and whose
failure is caught and yields 502 `{error, reason: err.response?.data ||
err.message}`. -/
def generateH (req : GenReq) (up : Upstream) : GenResult :=
  if !(jsTruthyStr req.prompt) || !(jsTruthyInt req.width)
      || !(jsTruthyInt req.height) then
    { status := 400,
      body := [("error", .str "Missing required fields (prompt, width, height)")],
      attempts := 0 }
  else
    match up with
    | .ok data =>
      { status := 200,
        body :=
          [ ("success", .boolean true),
            ("message",
              .str ("Forwarded design generation request for \""
                ++ (req.prompt.getD "") ++ "\"")),
            ("forwardResponse", data) ],
        attempts := 1 }
    | .fail respData message =>
      { status := 502,
        body :=
          [ ("error", .str "Failed to forward design generation request"),
            ("reason", jsOrElse respData message) ],
        attempts := 1 }

/-! ### Basic handler lemmas -/

theorem enqueueH_credits (po : Option String) (nid : String) (s : RegState) :
    (enqueueH po nid s).1.credits = s.credits := by
  unfold enqueueH
  split
  · rfl
  · cases po with
    | none => rfl
    | some p =>
      dsimp only
      split <;> rfl

theorem enqueueH_completed (po : Option String) (nid : String) (s : RegState) :
    (enqueueH po nid s).1.completedJobs = s.completedJobs := by
  unfold enqueueH
  split
  · rfl
  · cases po with
    | none => rfl
    | some p =>
      dsimp only
      split <;> rfl

theorem enqueueH_cancelled (po : Option String) (nid : String) (s : RegState) :
    (enqueueH po nid s).1.cancelledJobs = s.cancelledJobs := by
  unfold enqueueH
  split
  · rfl
  · cases po with
    | none => rfl
    | some p =>
      dsimp only
      split <;> rfl

theorem cancelH_credits (po : Option String) (s : RegState) :
    (cancelH po s).1.credits = s.credits := by
  unfold cancelH
  split
  · rfl
  · cases po with
    | none => rfl
    | some j =>
      dsimp only
      split <;> rfl

theorem cancelH_completed (po : Option String) (s : RegState) :
    (cancelH po s).1.completedJobs = s.completedJobs := by
  unfold cancelH
  split
  · rfl
  · cases po with
    | none => rfl
    | some j =>
      dsimp only
      split <;> rfl

theorem statusH_fst (po : Option String) (s : RegState) :
    (statusH po s).1 = s := by
  unfold statusH
  split
  · rfl
  · cases po with
    | none => rfl
    | some j =>
      dsimp only
      cases readProp j s.completedJobs with
      | own imgs => rfl
      | inherited => rfl
      | absent =>
        dsimp only
        split
        · rfl
        · split <;> rfl

theorem fireH_credits (j p : String) (s : RegState) :
    (fireH j p s).credits = s.credits ∨
      (fireH j p s).credits = s.credits - 1 := by
  unfold fireH fireCallback
  split
  · split
    · exact Or.inr rfl
    · exact Or.inl rfl
  · exact Or.inl rfl

/-! ### Claim theorems: credits endpoints -/

/-- C5: for every state, the purchase operation succeeds with HTTP 200,
the new balance is the old balance plus exactly 10, and no other
component of the registry changes. -/
theorem purchase_always_adds_bundle (s : RegState) :
    purchaseH s = ({ s with credits := s.credits + 10 }, 200, s.credits + 10) ∧
    (purchaseH s).1.credits = s.credits + 10 ∧
    (purchaseH s).1.jobQueue = s.jobQueue ∧
    (purchaseH s).1.completedJobs = s.completedJobs ∧
    (purchaseH s).1.cancelledJobs = s.cancelledJobs ∧
    (purchaseH s).1.timers = s.timers :=
  ⟨rfl, rfl, rfl, rfl, rfl, rfl⟩

/-- C9: enqueue, cancel and status never change the credit balance
(status does not change the state at all); purchase adds exactly the
bundle of 10, and a timer fire either leaves the balance unchanged (the
job was no longer pending) or debits exactly 1. -/
theorem only_purchase_and_fire_mutate_credits
    (s : RegState) (po : Option String) (nid j p : String) :
    (enqueueH po nid s).1.credits = s.credits ∧
    (cancelH po s).1.credits = s.credits ∧
    (statusH po s).1 = s ∧
    (purchaseH s).1.credits = s.credits + CREDITS_IN_BUNDLE ∧
    ((fireH j p s).credits = s.credits ∨
      (fireH j p s).credits = s.credits - 1) :=
  ⟨enqueueH_credits po nid s, cancelH_credits po s, statusH_fst po s, rfl,
    fireH_credits j p s⟩

/-- C6: for every state, an enqueue whose prompt is missing (falsy) is
rejected with 400, and an enqueue with a real prompt but balance ≤ 0
is rejected with 403; in both cases the returned state is exactly the
input state (no job, no timer, no credit change).  Each failure case
carries only its own precondition. -/
theorem enqueue_reject_spec (s : RegState) (po : Option String) (p nid : String) :
    (jsTruthyStr po = false →
      enqueueH po nid s = (s, .missingPrompt) ∧
      EnqueueResp.httpStatus .missingPrompt = 400) ∧
    (p ≠ "" → s.credits ≤ 0 →
      enqueueH (some p) nid s = (s, .noCredits) ∧
      EnqueueResp.httpStatus .noCredits = 403) := by
  constructor
  · intro hmiss
    refine ⟨?_, rfl⟩
    unfold enqueueH
    rw [hmiss]
    rfl
  · intro hp hcred
    refine ⟨?_, rfl⟩
    unfold enqueueH
    have ht : jsTruthyStr (some p) = true := by
      simp [jsTruthyStr, hp]
    rw [ht]
    simp [hcred]

/-- Closed witness for `enqueue_reject_spec`: the missing-prompt 400 at
the ordinary positive-balance initial state, and the 403 at a
zero-credit state. -/
theorem enqueue_reject_spec_witness :
    (enqueueH none "x1" initState = (initState, .missingPrompt) ∧
      EnqueueResp.httpStatus .missingPrompt = 400) ∧
    (enqueueH (some "sunset") "x1" zeroCreditState =
        (zeroCreditState, .noCredits) ∧
      EnqueueResp.httpStatus .noCredits = 403) :=
  ⟨(enqueue_reject_spec initState none "sunset" "x1").1 (by decide),
   (enqueue_reject_spec zeroCreditState (some "z") "sunset" "x1").2
     (by decide) (by decide)⟩

/-! ### Claim theorems: the `/generate` proxy -/

/-- C10: the generate handler's field check is a JS falsiness check:
with all three keys present but `prompt = ""`, `width = 0` or
`height = 0`, it returns 400 with the missing-fields error and performs
no outbound call, whatever the upstream would have answered. -/
theorem generate_falsy_fields_rejected (p : String) (w h : Int) (up : Upstream)
    (hfalsy : p = "" ∨ w = 0 ∨ h = 0) :
    generateH ⟨some p, some w, some h⟩ up =
      { status := 400,
        body := [("error", .str "Missing required fields (prompt, width, height)")],
        attempts := 0 } := by
  unfold generateH
  rcases hfalsy with h1 | h1 | h1 <;> simp [jsTruthyStr, jsTruthyInt, h1]

/-- Closed witness for `generate_falsy_fields_rejected`: a present but
zero width is rejected without contacting the MCP service. -/
theorem generate_falsy_fields_rejected_witness :
    generateH ⟨some "Flyer", some 0, some 600⟩ (.ok (.str "unused")) =
      { status := 400,
        body := [("error", .str "Missing required fields (prompt, width, height)")],
        attempts := 0 } :=
  generate_falsy_fields_rejected "Flyer" 0 600 (.ok (.str "unused"))
    (Or.inr (Or.inl rfl))

/-- C8 counterexample: on an upstream failure the handler in
`src/backend/routers/image.ts` answers 502, but its JSON body has no
`success` field at all (the claimed `success:false` is absent); the
body is `{error, reason}`. -/
theorem generate_fail_body_has_no_success_field :
    ((generateH ⟨some "Flyer", some 800, some 600⟩
        (.fail none "timeout of 5000ms exceeded")).body.lookup "success"
      = none) ∧
    (generateH ⟨some "Flyer", some 800, some 600⟩
        (.fail none "timeout of 5000ms exceeded")).status = 502 ∧
    (generateH ⟨some "Flyer", some 800, some 600⟩
        (.fail none "timeout of 5000ms exceeded")).attempts = 1 := by
  decide

/-- C8 (amended): for every request passing the falsiness validation,
an upstream failure is caught and answered with HTTP 502 (never a 2xx),
the body's `reason` field echoes the upstream error payload verbatim
when one is present and truthy and otherwise — payload absent, or
present but falsy (`data || message`) — the error message, exactly one
outbound attempt is made, and the body carries no `success` flag. -/
theorem generate_fail_spec (p : String) (w h : Int)
    (respData : Option JVal) (msg : String)
    (hp : p ≠ "") (hw : w ≠ 0) (hh : h ≠ 0) :
    (generateH ⟨some p, some w, some h⟩ (.fail respData msg)).status = 502 ∧
    (generateH ⟨some p, some w, some h⟩ (.fail respData msg)).body.lookup "error"
      = some (.str "Failed to forward design generation request") ∧
    (∀ v, respData = some v → v.jsTruthy = true →
      (generateH ⟨some p, some w, some h⟩ (.fail respData msg)).body.lookup "reason"
        = some v) ∧
    (∀ v, respData = some v → v.jsTruthy = false →
      (generateH ⟨some p, some w, some h⟩ (.fail respData msg)).body.lookup "reason"
        = some (.str msg)) ∧
    (respData = none →
      (generateH ⟨some p, some w, some h⟩ (.fail respData msg)).body.lookup "reason"
        = some (.str msg)) ∧
    (generateH ⟨some p, some w, some h⟩ (.fail respData msg)).attempts = 1 ∧
    (generateH ⟨some p, some w, some h⟩ (.fail respData msg)).body.lookup "success"
      = none := by
  have hcond : (!(jsTruthyStr (some p)) || !(jsTruthyInt (some w))
      || !(jsTruthyInt (some h))) = false := by
    simp [jsTruthyStr, jsTruthyInt, hp, hw, hh]
  refine ⟨?_, ?_, ?_, ?_, ?_, ?_, ?_⟩ <;>
    simp only [generateH, hcond, Bool.false_eq_true, if_false]
  · rfl
  · intro v hv ht
    subst hv
    have h1 : jsOrElse (some v) msg = v := by simp [jsOrElse, ht]
    rw [h1]
    rfl
  · intro v hv ht
    subst hv
    have h1 : jsOrElse (some v) msg = .str msg := by simp [jsOrElse, ht]
    rw [h1]
    rfl
  · intro hv
    subst hv
    rfl
  · rfl

/-- Closed witness for `generate_fail_spec` with a truthy upstream
payload, a present-but-falsy payload (empty-string body), and a bare
network error. -/
theorem generate_fail_spec_witness :
    (generateH ⟨some "Flyer", some 800, some 600⟩
        (.fail (some (.str "upstream boom")) "Request failed with status code 500")).status
      = 502 ∧
    (generateH ⟨some "Flyer", some 800, some 600⟩
        (.fail (some (.str "upstream boom")) "Request failed with status code 500")).body.lookup "reason"
      = some (.str "upstream boom") ∧
    (generateH ⟨some "Flyer", some 800, some 600⟩
        (.fail (some (.str "")) "Request failed with status code 502")).body.lookup "reason"
      = some (.str "Request failed with status code 502") ∧
    (generateH ⟨some "Flyer", some 800, some 600⟩
        (.fail none "connect ECONNREFUSED 127.0.0.1:4000")).body.lookup "reason"
      = some (.str "connect ECONNREFUSED 127.0.0.1:4000") ∧
    (generateH ⟨some "Flyer", some 800, some 600⟩
        (.fail (some (.str "upstream boom")) "Request failed with status code 500")).attempts
      = 1 := by
  refine ⟨?_, ?_, ?_, ?_, ?_⟩
  · exact (generate_fail_spec "Flyer" 800 600 (some (.str "upstream boom"))
      "Request failed with status code 500" (by decide) (by decide) (by decide)).1
  · exact (generate_fail_spec "Flyer" 800 600 (some (.str "upstream boom"))
      "Request failed with status code 500" (by decide) (by decide) (by decide)).2.2.1
      (.str "upstream boom") rfl (by decide)
  · exact (generate_fail_spec "Flyer" 800 600 (some (.str ""))
      "Request failed with status code 502" (by decide) (by decide) (by decide)).2.2.2.1
      (.str "") rfl (by decide)
  · exact (generate_fail_spec "Flyer" 800 600 none
      "connect ECONNREFUSED 127.0.0.1:4000" (by decide) (by decide) (by decide)).2.2.2.2.1
      rfl
  · exact (generate_fail_spec "Flyer" 800 600 (some (.str "upstream boom"))
      "Request failed with status code 500" (by decide) (by decide) (by decide)).2.2.2.2.2.1

/-! ### Bridging lemmas between the code's boolean checks and
membership -/

theorem lookup_eq_none_iff (j : String) (l : List (String × List ImageResponse)) :
    l.lookup j = none ↔ j ∉ l.map (·.1) := by
  induction l with
  | nil => simp [List.lookup]
  | cons kv rest ih =>
    obtain ⟨k, v⟩ := kv
    by_cases hk : k = j
    · subst hk
      simp [List.lookup]
    · simp only [List.lookup, List.map_cons, List.mem_cons]
      have hb : (j == k) = false := by
        simp only [beq_eq_false_iff_ne, ne_eq]
        exact fun h => hk h.symm
      rw [hb]
      simp only [ih]
      constructor
      · intro hnm
        rintro (h1 | h1)
        · exact hk h1.symm
        · exact hnm h1
      · intro hnm h1
        exact hnm (Or.inr h1)

theorem any_jobId_iff (j : String) (q : List PendingJob) :
    q.any (fun job => job.jobId = j) = true ↔ j ∈ q.map (·.jobId) := by
  simp [List.any_eq_true, List.mem_map]

theorem any_eq_iff (j : String) (l : List String) :
    l.any (fun c => c = j) = true ↔ j ∈ l := by
  simp [List.any_eq_true]

/-! ### readProp evaluation lemmas -/

theorem readProp_own (j : String) (l : List (String × List ImageResponse))
    (imgs : List ImageResponse) (hl : l.lookup j = some imgs) :
    readProp j l = .own imgs := by
  simp [readProp, hl]

theorem readProp_inherited (j : String) (l : List (String × List ImageResponse))
    (hl : l.lookup j = none) (hproto : j ∈ objectProtoKeys) :
    readProp j l = .inherited := by
  simp [readProp, hl, hproto]

theorem readProp_absent (j : String) (l : List (String × List ImageResponse))
    (hl : l.lookup j = none) (hproto : j ∉ objectProtoKeys) :
    readProp j l = .absent := by
  simp [readProp, hl, hproto]

/-! ### Claim theorems: job status -/

/-- C7 counterexample: on the initial registry the client-supplied id
`constructor` is in none of the three collections, yet the status
handler answers 200 `completed` (with the inherited
`Object.prototype.constructor` as the images value) via the
prototype-chain hit of `completedJobs["constructor"]`, not the claimed
404. -/
theorem status_proto_chain_hit :
    (statusH (some "constructor") initState).2 = .completedInherited 10 ∧
    StatusResp.httpStatus (.completedInherited 10) = 200 ∧
    "constructor" ∉ pendingIds initState ∧
    "constructor" ∉ completedIds initState ∧
    "constructor" ∉ initState.cancelledJobs ∧
    (statusH (some "constructor") initState).2 ≠ .notFound := by
  decide

/-- C7 (amended): with an id provided, status never modifies the
state, and answers — following the code's check order — `completed`
with the stored image list and current balance when the id is an own
completed key; 200 `completed` with the inherited value when the id is
an `Object.prototype` property name that is not an own key; and only
otherwise `processing` when pending, `cancelled` when in the cancelled
list, and 404 `notFound` when the id is in none of the three
collections and hits nothing on the prototype chain. -/
theorem status_spec (s : RegState) (j : String) (hj : j ≠ "") :
    (statusH (some j) s).1 = s ∧
    (∀ imgs, s.completedJobs.lookup j = some imgs →
      (statusH (some j) s).2 = .completed imgs s.credits ∧
      StatusResp.httpStatus (.completed imgs s.credits) = 200) ∧
    (j ∉ completedIds s → j ∈ objectProtoKeys →
      (statusH (some j) s).2 = .completedInherited s.credits ∧
      StatusResp.httpStatus (.completedInherited s.credits) = 200) ∧
    (j ∉ completedIds s → j ∉ objectProtoKeys → j ∈ pendingIds s →
      (statusH (some j) s).2 = .processing) ∧
    (j ∉ completedIds s → j ∉ objectProtoKeys → j ∉ pendingIds s →
      j ∈ s.cancelledJobs → (statusH (some j) s).2 = .cancelled) ∧
    (j ∉ completedIds s → j ∉ objectProtoKeys → j ∉ pendingIds s →
      j ∉ s.cancelledJobs →
      (statusH (some j) s).2 = .notFound ∧
      StatusResp.httpStatus .notFound = 404) := by
  have ht : (!(jsTruthyStr (some j))) = false := by simp [jsTruthyStr, hj]
  refine ⟨statusH_fst _ _, ?_, ?_, ?_, ?_, ?_⟩
  · intro imgs hl
    refine ⟨?_, rfl⟩
    simp [statusH, ht, readProp_own j _ imgs hl]
  · intro hnc hproto
    have hl : s.completedJobs.lookup j = none := (lookup_eq_none_iff j _).2 hnc
    refine ⟨?_, rfl⟩
    simp [statusH, ht, readProp_inherited j _ hl hproto]
  · intro hnc hproto hp
    have hl : s.completedJobs.lookup j = none := (lookup_eq_none_iff j _).2 hnc
    have ha : s.jobQueue.any (fun job => job.jobId = j) = true :=
      (any_jobId_iff j _).2 hp
    simp [statusH, ht, readProp_absent j _ hl hproto, ha]
  · intro hnc hproto hnp hc
    have hl : s.completedJobs.lookup j = none := (lookup_eq_none_iff j _).2 hnc
    have ha : s.jobQueue.any (fun job => job.jobId = j) = false := by
      rw [Bool.eq_false_iff]
      intro hcontra
      exact hnp ((any_jobId_iff j _).1 hcontra)
    have hb : s.cancelledJobs.any (fun c => c = j) = true :=
      (any_eq_iff j _).2 hc
    simp [statusH, ht, readProp_absent j _ hl hproto, ha, hb]
  · intro hnc hproto hnp hncl
    have hl : s.completedJobs.lookup j = none := (lookup_eq_none_iff j _).2 hnc
    have ha : s.jobQueue.any (fun job => job.jobId = j) = false := by
      rw [Bool.eq_false_iff]
      intro hcontra
      exact hnp ((any_jobId_iff j _).1 hcontra)
    have hb : s.cancelledJobs.any (fun c => c = j) = false := by
      rw [Bool.eq_false_iff]
      intro hcontra
      exact hncl ((any_eq_iff j _).1 hcontra)
    exact ⟨by simp [statusH, ht, readProp_absent j _ hl hproto, ha, hb], rfl⟩

/-- Closed witness for `status_spec` on `sampleState`: all five status
outcomes at concrete ids, including the prototype-chain hit at
`constructor`. -/
theorem status_spec_witness :
    (statusH (some "a") sampleState).2 = .completed (labelledImages "sunset") 9 ∧
    (statusH (some "constructor") sampleState).2 = .completedInherited 9 ∧
    (statusH (some "b") sampleState).2 = .processing ∧
    (statusH (some "c") sampleState).2 = .cancelled ∧
    (statusH (some "d") sampleState).2 = .notFound ∧
    (statusH (some "d") sampleState).1 = sampleState :=
  ⟨((status_spec sampleState "a" (by decide)).2.1 (labelledImages "sunset")
      (by decide)).1,
   ((status_spec sampleState "constructor" (by decide)).2.2.1 (by decide)
     (by decide)).1,
   (status_spec sampleState "b" (by decide)).2.2.2.1 (by decide) (by decide)
     (by decide),
   (status_spec sampleState "c" (by decide)).2.2.2.2.1 (by decide) (by decide)
     (by decide) (by decide),
   ((status_spec sampleState "d" (by decide)).2.2.2.2.2 (by decide) (by decide)
     (by decide) (by decide)).1,
   (status_spec sampleState "d" (by decide)).1⟩

/-! ### assocSet and enqueue lemmas -/

theorem lookup_assocSet_self (k : String) (v : List ImageResponse)
    (l : List (String × List ImageResponse)) :
    (assocSet k v l).lookup k = some v := by
  induction l with
  | nil => simp [assocSet, List.lookup]
  | cons kv rest ih =>
    obtain ⟨k', v'⟩ := kv
    by_cases hk : k' = k
    · subst hk
      simp [assocSet, List.lookup]
    · simp only [assocSet, if_neg hk, List.lookup]
      have hb : (k == k') = false := by
        simp only [beq_eq_false_iff_ne, ne_eq]
        exact fun h => hk h.symm
      rw [hb]
      exact ih

theorem lookup_assocSet_ne (k x : String) (hx : x ≠ k) (v : List ImageResponse)
    (l : List (String × List ImageResponse)) :
    (assocSet k v l).lookup x = l.lookup x := by
  induction l with
  | nil =>
    have hb : (x == k) = false := by
      simp only [beq_eq_false_iff_ne, ne_eq]
      exact hx
    simp [assocSet, List.lookup, hb]
  | cons kv rest ih =>
    obtain ⟨k', v'⟩ := kv
    by_cases hk : k' = k
    · subst hk
      have hb : (x == k') = false := by
        simp only [beq_eq_false_iff_ne, ne_eq]
        exact hx
      simp [assocSet, List.lookup, hb]
    · simp only [assocSet, if_neg hk, List.lookup]
      cases hxx : (x == k') <;> simp [ih]

theorem enqueueH_success (p nid : String) (s : RegState)
    (hp : p ≠ "") (hc : 0 < s.credits) :
    enqueueH (some p) nid s =
      ({ s with jobQueue := s.jobQueue ++ [⟨nid, p⟩],
                timers := s.timers ++ [⟨nid, p⟩] }, .queued nid) := by
  have ht : (!(jsTruthyStr (some p))) = false := by simp [jsTruthyStr, hp]
  simp [enqueueH, ht, not_le.2 hc]

/-! ### Claim theorems: enqueue / fire happy path -/

/-- C2 counterexample: `generateJobId` emits base-36 strings and can
emit `constructor`; an enqueue admitted under that id is immediately
reported 200 `completed` (via the prototype-chain hit of
`completedJobs["constructor"]`), not `processing` as the claim states
for every valid enqueue. -/
theorem enqueue_constructor_id_not_processing :
    (enqueueH (some "sunset") "constructor" initState).2 =
      .queued "constructor" ∧
    (statusH (some "constructor")
        (enqueueH (some "sunset") "constructor" initState).1).2 =
      .completedInherited 10 ∧
    (statusH (some "constructor")
        (enqueueH (some "sunset") "constructor" initState).1).2 ≠
      .processing := by
  decide

/-- C2 (amended): from any state with positive credits, enqueuing a
non-empty prompt under a fresh id that is not an `Object.prototype`
property name (of the ids `generateJobId` can emit, only `constructor`
is one) is accepted; status immediately afterwards is `processing`;
once the scheduled completion fires, status is `completed` with
exactly the two placeholder images each labelled with the original
prompt, and the balance is the pre-enqueue balance minus exactly 1. -/
theorem enqueue_then_fire_spec (s : RegState) (p nid : String)
    (hp : p ≠ "") (hid : nid ≠ "") (hc : 0 < s.credits)
    (_hfp : nid ∉ pendingIds s) (hfc : nid ∉ completedIds s)
    (hproto : nid ∉ objectProtoKeys) :
    (enqueueH (some p) nid s).2 = .queued nid ∧
    (statusH (some nid) (enqueueH (some p) nid s).1).2 = .processing ∧
    (statusH (some nid) (fireH nid p (enqueueH (some p) nid s).1)).2 =
      .completed (labelledImages p) (s.credits - 1) ∧
    (labelledImages p).length = 2 ∧
    (∀ img ∈ labelledImages p, img.label = some p) ∧
    (fireH nid p (enqueueH (some p) nid s).1).credits = s.credits - 1 := by
  have hency := enqueueH_success p nid s hp hc
  have htj : (!(jsTruthyStr (some nid))) = false := by simp [jsTruthyStr, hid]
  have hlk : ((enqueueH (some p) nid s).1).completedJobs.lookup nid = none := by
    rw [hency]
    exact (lookup_eq_none_iff nid _).2 hfc
  have hany : ((enqueueH (some p) nid s).1).jobQueue.any
      (fun job => job.jobId = nid) = true := by
    rw [hency]
    apply (any_jobId_iff nid _).2
    simp
  have hfire : fireH nid p (enqueueH (some p) nid s).1 =
      { jobQueue :=
          ((enqueueH (some p) nid s).1).jobQueue.eraseP
            (fun job => job.jobId = nid),
        completedJobs :=
          assocSet nid (labelledImages p) s.completedJobs,
        cancelledJobs := s.cancelledJobs,
        credits := s.credits - 1,
        timers :=
          ((enqueueH (some p) nid s).1).timers.erase ⟨nid, p⟩ } := by
    rw [hency]
    have htm : (⟨nid, p⟩ : PendingJob) ∈ s.timers ++ [⟨nid, p⟩] := by simp
    have hany2 : (s.jobQueue ++ [(⟨nid, p⟩ : PendingJob)]).any
        (fun job => job.jobId = nid) = true := by
      apply (any_jobId_iff nid _).2
      simp
    simp only [fireH, fireCallback]
    rw [if_pos htm]
    rw [if_pos (by exact hany2)]
  refine ⟨by rw [hency], ?_, ?_, rfl, ?_, ?_⟩
  · simp [statusH, htj, readProp_absent nid _ hlk hproto, hany]
  · have hlk2 : (fireH nid p (enqueueH (some p) nid s).1).completedJobs.lookup nid
        = some (labelledImages p) := by
      rw [hfire]
      exact lookup_assocSet_self nid _ _
    have hcr : (fireH nid p (enqueueH (some p) nid s).1).credits = s.credits - 1 := by
      rw [hfire]
    simp [statusH, htj, readProp_own nid _ _ hlk2, hcr]
  · intro img hm
    rcases List.mem_map.1 hm with ⟨a, _, rfl⟩
    rfl
  · rw [hfire]

/-- Closed witness for `enqueue_then_fire_spec` on the initial state
with prompt `sunset`. -/
theorem enqueue_then_fire_spec_witness :
    (enqueueH (some "sunset") "abc" initState).2 = .queued "abc" ∧
    (statusH (some "abc") (enqueueH (some "sunset") "abc" initState).1).2 =
      .processing ∧
    (statusH (some "abc")
        (fireH "abc" "sunset" (enqueueH (some "sunset") "abc" initState).1)).2 =
      .completed (labelledImages "sunset") 9 ∧
    (labelledImages "sunset").length = 2 ∧
    (fireH "abc" "sunset" (enqueueH (some "sunset") "abc" initState).1).credits
      = 9 := by
  have h := enqueue_then_fire_spec initState "sunset" "abc" (by decide)
    (by decide) (by decide) (by decide) (by decide) (by decide)
  exact ⟨h.1, h.2.1, h.2.2.1, h.2.2.2.1, h.2.2.2.2.2⟩

/-! ### Claim theorems: credits vs. completion -/

/-- C1 counterexample: a reachable trace in which every enqueue was
admitted by the balance > 0 pre-check (eleven jobs admitted while the
balance sits at 10, since enqueue does not debit), all ids fresh, yet
after the eleven scheduled completions fire and each debits one credit
the balance is −1 < 0. -/
theorem completion_overdraft :
    (run initState overdraftTrace).credits < 0 ∧
    (run initState overdraftTrace).credits = -1 ∧
    (run initState overdraftTrace).completedJobs.length = 11 ∧
    goodTrace initState overdraftTrace = true := by
  decide

/-- C1 (amended): a completion whose job is still pending debits
exactly one credit, so the resulting balance is nonnegative provided
the balance just before the fire is at least 1; the enqueue-time
`credits > 0` pre-check alone does not guarantee this, because enqueue
does not debit and several jobs can be admitted against the same
unspent balance. -/
theorem fire_debits_exactly_one (s : RegState) (j p : String)
    (ht : (⟨j, p⟩ : PendingJob) ∈ s.timers)
    (hpend : s.jobQueue.any (fun job => job.jobId = j) = true) :
    (fireH j p s).credits = s.credits - 1 ∧
    (1 ≤ s.credits → 0 ≤ (fireH j p s).credits) := by
  have hfire : (fireH j p s).credits = s.credits - 1 := by
    simp only [fireH, fireCallback]
    rw [if_pos ht]
    rw [if_pos (by exact hpend)]
  exact ⟨hfire, fun h1 => by rw [hfire]; omega⟩

/-- Closed witness for `fire_debits_exactly_one` at a one-job state. -/
theorem fire_debits_exactly_one_witness :
    (fireH "a" "p" oneJobState).credits = 9 ∧
    0 ≤ (fireH "a" "p" oneJobState).credits := by
  have h := fire_debits_exactly_one oneJobState "a" "p" (by decide) (by decide)
  exact ⟨h.1, h.2 (by decide)⟩

/-! ### Step case-analysis lemmas -/

theorem enqueueH_pendingIds (po : Option String) (nid : String) (s : RegState) :
    pendingIds (enqueueH po nid s).1 = pendingIds s ∨
    pendingIds (enqueueH po nid s).1 = pendingIds s ++ [nid] := by
  unfold enqueueH
  split
  · exact Or.inl rfl
  · cases po with
    | none => exact Or.inl rfl
    | some p =>
      dsimp only
      split
      · exact Or.inl rfl
      · right
        simp [pendingIds]

theorem fireH_cases (j' p' : String) (s : RegState) :
    ((fireH j' p' s).jobQueue = s.jobQueue ∧
     (fireH j' p' s).completedJobs = s.completedJobs ∧
     (fireH j' p' s).cancelledJobs = s.cancelledJobs ∧
     (fireH j' p' s).credits = s.credits) ∨
    (s.jobQueue.any (fun job => job.jobId = j') = true ∧
     (fireH j' p' s).jobQueue = s.jobQueue.eraseP (fun job => job.jobId = j') ∧
     (fireH j' p' s).completedJobs = assocSet j' (labelledImages p') s.completedJobs ∧
     (fireH j' p' s).cancelledJobs = s.cancelledJobs ∧
     (fireH j' p' s).credits = s.credits - 1) := by
  unfold fireH fireCallback
  split
  · split
    · rename_i hany
      exact Or.inr ⟨hany, rfl, rfl, rfl, rfl⟩
    · exact Or.inl ⟨rfl, rfl, rfl, rfl⟩
  · exact Or.inl ⟨rfl, rfl, rfl, rfl⟩

theorem cancelH_cases (po : Option String) (s : RegState) :
    (cancelH po s).1 = s ∨
    ∃ i entry, po = some i ∧
      s.jobQueue.find? (fun job => job.jobId = i) = some entry ∧
      (cancelH po s).1 =
        { s with
            jobQueue := s.jobQueue.eraseP (fun job => job.jobId = i),
            timers := s.timers.erase entry,
            cancelledJobs := s.cancelledJobs ++ [i] } := by
  unfold cancelH
  split
  · exact Or.inl rfl
  · cases po with
    | none => exact Or.inl rfl
    | some i =>
      dsimp only
      cases hf : s.jobQueue.find? (fun job => job.jobId = i) with
      | none => exact Or.inl rfl
      | some entry => exact Or.inr ⟨i, entry, rfl, hf, rfl⟩

theorem cancelH_success (j : String) (s : RegState) (hj : j ≠ "")
    (hpend : j ∈ pendingIds s) :
    ∃ entry,
      s.jobQueue.find? (fun job => job.jobId = j) = some entry ∧
      cancelH (some j) s =
        ({ s with
            jobQueue := s.jobQueue.eraseP (fun job => job.jobId = j),
            timers := s.timers.erase entry,
            cancelledJobs := s.cancelledJobs ++ [j] },
         .cancelledOk) := by
  have ht : (!(jsTruthyStr (some j))) = false := by simp [jsTruthyStr, hj]
  cases hf : s.jobQueue.find? (fun job => job.jobId = j) with
  | none =>
    exfalso
    rcases List.mem_map.1 hpend with ⟨entry, hmem, hid⟩
    have := List.find?_eq_none.1 hf entry hmem
    simp [hid] at this
  | some entry =>
    refine ⟨entry, rfl, ?_⟩
    simp [cancelH, ht, hf]

theorem not_mem_map_eraseP (j : String) (q : List PendingJob)
    (hnodup : (q.map (·.jobId)).Nodup) :
    j ∉ (q.eraseP (fun job => job.jobId = j)).map (·.jobId) := by
  induction q with
  | nil => simp
  | cons a q ih =>
    simp only [List.map_cons, List.nodup_cons] at hnodup
    by_cases ha : a.jobId = j
    · rw [List.eraseP_cons_of_pos (by simp [ha])]
      intro hm
      exact hnodup.1 (ha ▸ hm)
    · rw [List.eraseP_cons_of_neg (by simp [ha])]
      simp only [List.map_cons, List.mem_cons]
      rintro (h1 | h1)
      · exact ha h1.symm
      · exact ih hnodup.2 h1

theorem mem_map_of_mem_map_eraseP {x : String}
    (pred : PendingJob → Bool) (q : List PendingJob)
    (hx : x ∈ (q.eraseP pred).map (·.jobId)) : x ∈ q.map (·.jobId) := by
  rcases List.mem_map.1 hx with ⟨a, ha, rfl⟩
  exact List.mem_map.2 ⟨a, List.mem_of_mem_eraseP ha, rfl⟩

theorem fire_collections_noop (j p : String) (s : RegState)
    (hnp : j ∉ pendingIds s) :
    (fireH j p s).jobQueue = s.jobQueue ∧
    (fireH j p s).completedJobs = s.completedJobs ∧
    (fireH j p s).cancelledJobs = s.cancelledJobs ∧
    (fireH j p s).credits = s.credits := by
  rcases fireH_cases j p s with h | ⟨hany, _⟩
  · exact h
  · exact absurd ((any_jobId_iff j _).1 hany) hnp

theorem statusH_cancelled_eval (s : RegState) (j : String) (hj : j ≠ "")
    (hproto : j ∉ objectProtoKeys)
    (hl : s.completedJobs.lookup j = none) (hnp : j ∉ pendingIds s)
    (hc : j ∈ s.cancelledJobs) :
    (statusH (some j) s).2 = .cancelled := by
  have ht : (!(jsTruthyStr (some j))) = false := by simp [jsTruthyStr, hj]
  have ha : s.jobQueue.any (fun job => job.jobId = j) = false := by
    rw [Bool.eq_false_iff]
    intro hcontra
    exact hnp ((any_jobId_iff j _).1 hcontra)
  have hb : s.cancelledJobs.any (fun c => c = j) = true := (any_eq_iff j _).2 hc
  simp [statusH, ht, readProp_absent j _ hl hproto, ha, hb]

/-! ### Persistence of a cancelled id -/

theorem goneCancelled_step (j : String) (s : RegState) (e : Event)
    (he : ∀ po, e = .enqueue po j → False)
    (h : goneCancelled j s) : goneCancelled j (step s e) := by
  obtain ⟨hp, hcpl, hcn⟩ := h
  cases e with
  | purchase => exact ⟨hp, hcpl, hcn⟩
  | status po =>
    have hs : step s (.status po) = s := statusH_fst po s
    rw [hs]
    exact ⟨hp, hcpl, hcn⟩
  | enqueue po i =>
    have hi : i ≠ j := fun hij => he po (by rw [hij])
    refine ⟨?_, ?_, ?_⟩
    · rcases enqueueH_pendingIds po i s with hq | hq
      · show j ∉ pendingIds (enqueueH po i s).1
        rw [hq]
        exact hp
      · show j ∉ pendingIds (enqueueH po i s).1
        rw [hq]
        simp only [List.mem_append, List.mem_singleton]
        rintro (h1 | h1)
        · exact hp h1
        · exact hi h1.symm
    · show ((enqueueH po i s).1).completedJobs.lookup j = none
      rw [enqueueH_completed]
      exact hcpl
    · show j ∈ ((enqueueH po i s).1).cancelledJobs
      rw [enqueueH_cancelled]
      exact hcn
  | fire j' p' =>
    rcases fireH_cases j' p' s with ⟨h1, h2, h3, _⟩ | ⟨hany, h1, h2, h3, _⟩
    · refine ⟨?_, ?_, ?_⟩
      · show j ∉ ((fireH j' p' s).jobQueue).map (·.jobId)
        rw [h1]
        exact hp
      · show ((fireH j' p' s).completedJobs).lookup j = none
        rw [h2]
        exact hcpl
      · show j ∈ (fireH j' p' s).cancelledJobs
        rw [h3]
        exact hcn
    · have hj' : j' ∈ pendingIds s := (any_jobId_iff j' _).1 hany
      have hne : j ≠ j' := fun hjj => hp (hjj ▸ hj')
      refine ⟨?_, ?_, ?_⟩
      · show j ∉ ((fireH j' p' s).jobQueue).map (·.jobId)
        rw [h1]
        intro hm
        exact hp (mem_map_of_mem_map_eraseP _ _ hm)
      · show ((fireH j' p' s).completedJobs).lookup j = none
        rw [h2, lookup_assocSet_ne j' j hne]
        exact hcpl
      · show j ∈ (fireH j' p' s).cancelledJobs
        rw [h3]
        exact hcn
  | cancel po =>
    rcases cancelH_cases po s with h1 | ⟨i, entry, hpo, hfind, h1⟩
    · show goneCancelled j (cancelH po s).1
      rw [h1]
      exact ⟨hp, hcpl, hcn⟩
    · show goneCancelled j (cancelH po s).1
      rw [h1]
      refine ⟨?_, hcpl, ?_⟩
      · intro hm
        exact hp (mem_map_of_mem_map_eraseP _ _ hm)
      · exact List.mem_append_left _ hcn

theorem goneCancelled_run (j : String) :
    ∀ (es : List Event) (s : RegState),
      avoidsEnqueueOf j es = true → goneCancelled j s →
      goneCancelled j (run s es)
  | [], s, _, h => h
  | e :: es, s, hav, h => by
    have hav2 : (enqAvoids j e && avoidsEnqueueOf j es) = true := hav
    rw [Bool.and_eq_true] at hav2
    have hstep : goneCancelled j (step s e) := by
      apply goneCancelled_step j s e ?_ h
      intro po hpo
      subst hpo
      have hx : (j != j) = true := hav2.1
      simp at hx
    exact goneCancelled_run j es (step s e) hav2.2 hstep

/-! ### Claim theorems: cancellation -/

/-- C3 counterexample: a pending job whose (base-36-generatable) id is
`constructor`, cancelled while pending, is recorded as cancelled, yet
every subsequent status query answers 200 `completed` via the
prototype-chain hit of `completedJobs["constructor"]` — never
`cancelled` — contradicting the claim. -/
theorem cancel_constructor_id_reports_completed :
    (cancelH (some "constructor")
        (enqueueH (some "sunset") "constructor" initState).1).2 =
      .cancelledOk ∧
    "constructor" ∈
      ((cancelH (some "constructor")
          (enqueueH (some "sunset") "constructor" initState).1).1).cancelledJobs ∧
    (statusH (some "constructor")
        (cancelH (some "constructor")
          (enqueueH (some "sunset") "constructor" initState).1).1).2 =
      .completedInherited 10 ∧
    (statusH (some "constructor")
        (cancelH (some "constructor")
          (enqueueH (some "sunset") "constructor" initState).1).1).2 ≠
      .cancelled := by
  decide

/-- C3 (amended): cancelling a job that is pending (whose id, as
issued by enqueue, is unique in the queue, not a completed key, and
not an `Object.prototype` property name — of the generatable ids only
`constructor` is one) succeeds, leaves the credit balance and the
completed record untouched, defuses the scheduled completion (a later
fire of that id changes none of the collections and no credits), and
every subsequent status query — after any further activity that does
not re-issue the same id — answers `cancelled`, never `completed`. -/
theorem cancel_pending_spec (s : RegState) (j : String) (hj : j ≠ "")
    (hproto : j ∉ objectProtoKeys)
    (hpend : j ∈ pendingIds s)
    (hnodup : (pendingIds s).Nodup)
    (hncomp : j ∉ completedIds s) :
    (cancelH (some j) s).2 = .cancelledOk ∧
    (cancelH (some j) s).1.credits = s.credits ∧
    (cancelH (some j) s).1.completedJobs = s.completedJobs ∧
    (∀ p',
      (fireH j p' (cancelH (some j) s).1).jobQueue =
        (cancelH (some j) s).1.jobQueue ∧
      (fireH j p' (cancelH (some j) s).1).completedJobs =
        (cancelH (some j) s).1.completedJobs ∧
      (fireH j p' (cancelH (some j) s).1).cancelledJobs =
        (cancelH (some j) s).1.cancelledJobs ∧
      (fireH j p' (cancelH (some j) s).1).credits =
        (cancelH (some j) s).1.credits) ∧
    (∀ es, avoidsEnqueueOf j es = true →
      (statusH (some j) (run (cancelH (some j) s).1 es)).2 = .cancelled ∧
      ∀ imgs cr,
        (statusH (some j) (run (cancelH (some j) s).1 es)).2 ≠
          .completed imgs cr) := by
  obtain ⟨entry, hfind, hcan⟩ := cancelH_success j s hj hpend
  have hgone : goneCancelled j (cancelH (some j) s).1 := by
    rw [hcan]
    refine ⟨?_, ?_, ?_⟩
    · exact not_mem_map_eraseP j s.jobQueue hnodup
    · exact (lookup_eq_none_iff j _).2 hncomp
    · simp
  refine ⟨by rw [hcan], by rw [hcan], by rw [hcan], ?_, ?_⟩
  · intro p'
    exact fire_collections_noop j p' _ hgone.1
  · intro es hes
    have hrun : goneCancelled j (run (cancelH (some j) s).1 es) :=
      goneCancelled_run j es _ hes hgone
    have hst : (statusH (some j) (run (cancelH (some j) s).1 es)).2 = .cancelled :=
      statusH_cancelled_eval _ j hj hproto hrun.2.1 hrun.1 hrun.2.2
    refine ⟨hst, ?_⟩
    intro imgs cr hcontra
    rw [hst] at hcontra
    exact StatusResp.noConfusion hcontra

/-- Closed witness for `cancel_pending_spec`: cancel the single pending
job of `oneJobState`, then let its (defused) timer fire and purchase
credits; status still answers `cancelled`. -/
theorem cancel_pending_spec_witness :
    (cancelH (some "a") oneJobState).2 = .cancelledOk ∧
    (cancelH (some "a") oneJobState).1.credits = 10 ∧
    (fireH "a" "p" (cancelH (some "a") oneJobState).1).completedJobs =
      (cancelH (some "a") oneJobState).1.completedJobs ∧
    (statusH (some "a")
        (run (cancelH (some "a") oneJobState).1
          [.fire "a" "p", .purchase])).2 = .cancelled ∧
    (statusH (some "a")
        (run (cancelH (some "a") oneJobState).1
          [.fire "a" "p", .purchase])).2 ≠ .completed (labelledImages "p") 9 := by
  have h := cancel_pending_spec oneJobState "a" (by decide) (by decide)
    (by decide) (by decide) (by decide)
  exact ⟨h.1, h.2.1, (h.2.2.2.1 "p").2.1,
    (h.2.2.2.2 [.fire "a" "p", .purchase] (by decide)).1,
    (h.2.2.2.2 [.fire "a" "p", .purchase] (by decide)).2 (labelledImages "p") 9⟩

/-! ### Key-set lemmas for assocSet -/

theorem mem_keys_assocSet_of_mem (k x : String) (v : List ImageResponse)
    (l : List (String × List ImageResponse)) (hx : x ∈ l.map (·.1)) :
    x ∈ (assocSet k v l).map (·.1) := by
  induction l with
  | nil => simp at hx
  | cons kv rest ih =>
    obtain ⟨k', v'⟩ := kv
    simp only [List.map_cons, List.mem_cons] at hx
    by_cases hk : k' = k
    · subst hk
      have hset : assocSet k' v ((k', v') :: rest) = (k', v) :: rest := by
        simp [assocSet]
      rw [hset]
      simp only [List.map_cons, List.mem_cons]
      exact hx
    · have hset : assocSet k v ((k', v') :: rest) = (k', v') :: assocSet k v rest := by
        simp [assocSet, hk]
      rw [hset]
      simp only [List.map_cons, List.mem_cons]
      rcases hx with hx | hx
      · exact Or.inl hx
      · exact Or.inr (ih hx)

theorem keys_assocSet_of_not_mem (k : String) (v : List ImageResponse)
    (l : List (String × List ImageResponse)) (hk : k ∉ l.map (·.1)) :
    (assocSet k v l).map (·.1) = l.map (·.1) ++ [k] := by
  induction l with
  | nil => simp [assocSet]
  | cons kv rest ih =>
    obtain ⟨k', v'⟩ := kv
    simp only [List.map_cons, List.mem_cons] at hk
    push_neg at hk
    have hne : ¬ (k' = k) := fun h => hk.1 h.symm
    have hset : assocSet k v ((k', v') :: rest) = (k', v') :: assocSet k v rest := by
      simp [assocSet, hne]
    rw [hset]
    simp only [List.map_cons, ih hk.2, List.cons_append]

theorem nodup_map_eraseP (pred : PendingJob → Bool) (q : List PendingJob)
    (h : (q.map (·.jobId)).Nodup) :
    ((q.eraseP pred).map (·.jobId)).Nodup := by
  have hsub : List.Sublist ((q.eraseP pred).map (·.jobId)) (q.map (·.jobId)) :=
    List.Sublist.map _ (List.eraseP_sublist q)
  exact List.Nodup.sublist hsub h

theorem regInv_congr (s t : RegState)
    (hp : pendingIds t = pendingIds s)
    (hc : completedIds t = completedIds s)
    (hl : t.cancelledJobs = s.cancelledJobs)
    (h : RegInv s) : RegInv t := by
  refine ⟨?_, ?_, ?_, ?_, ?_, ?_⟩
  · rw [hp]
    exact h.pendingNodup
  · rw [hc]
    exact h.completedNodup
  · rw [hl]
    exact h.cancelledNodup
  · intro x hx
    rw [hc]
    rw [hp] at hx
    exact h.pendingCompleted x hx
  · intro x hx
    rw [hl]
    rw [hp] at hx
    exact h.pendingCancelled x hx
  · intro x hx
    rw [hl]
    rw [hc] at hx
    exact h.completedCancelled x hx

/-! ### Preservation of the uniqueness invariant -/

theorem regInv_step (s : RegState) (e : Event)
    (hfresh : ∀ po i, e = .enqueue po i → freshId i s = true)
    (h : RegInv s) : RegInv (step s e) := by
  cases e with
  | purchase =>
    exact ⟨h.pendingNodup, h.completedNodup, h.cancelledNodup,
      h.pendingCompleted, h.pendingCancelled, h.completedCancelled⟩
  | status po =>
    have hs : step s (.status po) = s := statusH_fst po s
    rw [hs]
    exact h
  | enqueue po i =>
    have hfr := hfresh po i rfl
    simp only [freshId, Bool.and_eq_true, Bool.not_eq_true',
      decide_eq_false_iff_not] at hfr
    obtain ⟨⟨hnp, hnc⟩, hncl⟩ := hfr
    have hcm : completedIds (enqueueH po i s).1 = completedIds s := by
      unfold completedIds
      rw [enqueueH_completed]
    have hcl : ((enqueueH po i s).1).cancelledJobs = s.cancelledJobs :=
      enqueueH_cancelled po i s
    rcases enqueueH_pendingIds po i s with hq | hq
    · exact regInv_congr s _ hq hcm hcl h
    · refine ⟨?_, ?_, ?_, ?_, ?_, ?_⟩
      · rw [show pendingIds (step s (.enqueue po i)) = pendingIds s ++ [i] from hq]
        rw [List.nodup_append]
        exact ⟨h.pendingNodup, List.nodup_singleton i,
          fun x hx hx' => by
            rw [List.mem_singleton] at hx'
            subst hx'
            exact hnp hx⟩
      · rw [show completedIds (step s (.enqueue po i)) = completedIds s from hcm]
        exact h.completedNodup
      · rw [show (step s (.enqueue po i)).cancelledJobs = s.cancelledJobs from hcl]
        exact h.cancelledNodup
      · intro x hx
        rw [show completedIds (step s (.enqueue po i)) = completedIds s from hcm]
        rw [show pendingIds (step s (.enqueue po i)) = pendingIds s ++ [i] from hq]
          at hx
        rcases List.mem_append.1 hx with hx | hx
        · exact h.pendingCompleted x hx
        · rw [List.mem_singleton] at hx
          subst hx
          exact hnc
      · intro x hx
        rw [show (step s (.enqueue po i)).cancelledJobs = s.cancelledJobs from hcl]
        rw [show pendingIds (step s (.enqueue po i)) = pendingIds s ++ [i] from hq]
          at hx
        rcases List.mem_append.1 hx with hx | hx
        · exact h.pendingCancelled x hx
        · rw [List.mem_singleton] at hx
          subst hx
          exact hncl
      · intro x hx
        rw [show (step s (.enqueue po i)).cancelledJobs = s.cancelledJobs from hcl]
        rw [show completedIds (step s (.enqueue po i)) = completedIds s from hcm]
          at hx
        exact h.completedCancelled x hx
  | fire j' p' =>
    rcases fireH_cases j' p' s with ⟨h1, h2, h3, _⟩ | ⟨hany, h1, h2, h3, _⟩
    · have hpm : pendingIds (step s (.fire j' p')) = pendingIds s := by
        unfold pendingIds
        rw [show (step s (.fire j' p')).jobQueue = s.jobQueue from h1]
      have hcm : completedIds (step s (.fire j' p')) = completedIds s := by
        unfold completedIds
        rw [show (step s (.fire j' p')).completedJobs = s.completedJobs from h2]
      exact regInv_congr s _ hpm hcm h3 h
    · have hj' : j' ∈ pendingIds s := (any_jobId_iff j' _).1 hany
      have hj'nc : j' ∉ completedIds s := h.pendingCompleted j' hj'
      have hpm : pendingIds (step s (.fire j' p')) =
          (s.jobQueue.eraseP (fun job => job.jobId = j')).map (·.jobId) := by
        unfold pendingIds
        rw [show (step s (.fire j' p')).jobQueue =
          s.jobQueue.eraseP (fun job => job.jobId = j') from h1]
      have hcm : completedIds (step s (.fire j' p')) = completedIds s ++ [j'] := by
        unfold completedIds
        rw [show (step s (.fire j' p')).completedJobs =
          assocSet j' (labelledImages p') s.completedJobs from h2]
        exact keys_assocSet_of_not_mem j' _ _ hj'nc
      have hcl : (step s (.fire j' p')).cancelledJobs = s.cancelledJobs := h3
      have hsub : ∀ x, x ∈ pendingIds (step s (.fire j' p')) →
          x ∈ pendingIds s ∧ x ≠ j' := by
        intro x hx
        rw [hpm] at hx
        refine ⟨mem_map_of_mem_map_eraseP _ _ hx, ?_⟩
        intro hxj
        subst hxj
        exact not_mem_map_eraseP x s.jobQueue h.pendingNodup hx
      refine ⟨?_, ?_, ?_, ?_, ?_, ?_⟩
      · rw [hpm]
        exact nodup_map_eraseP _ _ h.pendingNodup
      · rw [hcm, List.nodup_append]
        exact ⟨h.completedNodup, List.nodup_singleton j',
          fun x hx hx' => by
            rw [List.mem_singleton] at hx'
            subst hx'
            exact hj'nc hx⟩
      · rw [hcl]
        exact h.cancelledNodup
      · intro x hx
        obtain ⟨hxp, hxne⟩ := hsub x hx
        rw [hcm]
        intro hmem
        rcases List.mem_append.1 hmem with hmem | hmem
        · exact h.pendingCompleted x hxp hmem
        · rw [List.mem_singleton] at hmem
          exact hxne hmem
      · intro x hx
        rw [hcl]
        exact h.pendingCancelled x (hsub x hx).1
      · intro x hx
        rw [hcl]
        rw [hcm] at hx
        rcases List.mem_append.1 hx with hx | hx
        · exact h.completedCancelled x hx
        · rw [List.mem_singleton] at hx
          subst hx
          exact h.pendingCancelled x hj'
  | cancel po =>
    rcases cancelH_cases po s with h1 | ⟨i, entry, hpo, hfind, h1⟩
    · have hs : step s (.cancel po) = s := h1
      rw [hs]
      exact h
    · have hip : i ∈ pendingIds s := by
        have hmem : entry ∈ s.jobQueue := List.mem_of_find?_eq_some hfind
        have hid : entry.jobId = i := by
          have := List.find?_some hfind
          simpa using this
        exact List.mem_map.2 ⟨entry, hmem, hid⟩
      have hpm : pendingIds (step s (.cancel po)) =
          (s.jobQueue.eraseP (fun job => job.jobId = i)).map (·.jobId) := by
        show pendingIds (cancelH po s).1 = _
        rw [h1]
        rfl
      have hcm : completedIds (step s (.cancel po)) = completedIds s := by
        show completedIds (cancelH po s).1 = _
        rw [h1]
        rfl
      have hcl : (step s (.cancel po)).cancelledJobs = s.cancelledJobs ++ [i] := by
        show ((cancelH po s).1).cancelledJobs = _
        rw [h1]
      have hsub : ∀ x, x ∈ pendingIds (step s (.cancel po)) →
          x ∈ pendingIds s ∧ x ≠ i := by
        intro x hx
        rw [hpm] at hx
        refine ⟨mem_map_of_mem_map_eraseP _ _ hx, ?_⟩
        intro hxj
        subst hxj
        exact not_mem_map_eraseP x s.jobQueue h.pendingNodup hx
      refine ⟨?_, ?_, ?_, ?_, ?_, ?_⟩
      · rw [hpm]
        exact nodup_map_eraseP _ _ h.pendingNodup
      · rw [hcm]
        exact h.completedNodup
      · rw [hcl, List.nodup_append]
        exact ⟨h.cancelledNodup, List.nodup_singleton i,
          fun x hx hx' => by
            rw [List.mem_singleton] at hx'
            subst hx'
            exact h.pendingCancelled x hip hx⟩
      · intro x hx
        rw [hcm]
        exact h.pendingCompleted x (hsub x hx).1
      · intro x hx
        obtain ⟨hxp, hxne⟩ := hsub x hx
        rw [hcl]
        intro hmem
        rcases List.mem_append.1 hmem with hmem | hmem
        · exact h.pendingCancelled x hxp hmem
        · rw [List.mem_singleton] at hmem
          exact hxne hmem
      · intro x hx
        rw [hcm] at hx
        rw [hcl]
        intro hmem
        rcases List.mem_append.1 hmem with hmem | hmem
        · exact h.completedCancelled x hx hmem
        · rw [List.mem_singleton] at hmem
          subst hmem
          exact h.pendingCompleted x hip hx

theorem regInv_initState : RegInv initState := by
  refine ⟨?_, ?_, ?_, ?_, ?_, ?_⟩ <;> simp [initState, pendingIds, completedIds]

theorem regInv_run : ∀ (es : List Event) (s : RegState),
    goodTrace s es = true → RegInv s → RegInv (run s es)
  | [], _, _, h => h
  | e :: es, s, hg, h => by
    have hg2 : (freshCheck s e && goodTrace (step s e) es) = true := hg
    rw [Bool.and_eq_true] at hg2
    have hstep : RegInv (step s e) := by
      apply regInv_step s e ?_ h
      intro po i hei
      subst hei
      exact hg2.1
    exact regInv_run es (step s e) hg2.2 hstep

theorem completedIds_mono (s : RegState) (e : Event) (x : String)
    (hx : x ∈ completedIds s) : x ∈ completedIds (step s e) := by
  cases e with
  | purchase => exact hx
  | status po =>
    rw [show step s (.status po) = s from statusH_fst po s]
    exact hx
  | enqueue po i =>
    show x ∈ completedIds (enqueueH po i s).1
    unfold completedIds
    rw [enqueueH_completed]
    exact hx
  | fire j' p' =>
    rcases fireH_cases j' p' s with ⟨_, h2, _, _⟩ | ⟨_, _, h2, _, _⟩
    · unfold completedIds
      rw [show (step s (.fire j' p')).completedJobs = s.completedJobs from h2]
      exact hx
    · unfold completedIds
      rw [show (step s (.fire j' p')).completedJobs =
        assocSet j' (labelledImages p') s.completedJobs from h2]
      exact mem_keys_assocSet_of_mem j' x _ _ hx
  | cancel po =>
    rcases cancelH_cases po s with h1 | ⟨i, entry, hpo, hfind, h1⟩
    · rw [show step s (.cancel po) = s from h1]
      exact hx
    · show x ∈ completedIds (cancelH po s).1
      unfold completedIds
      rw [show ((cancelH po s).1).completedJobs = s.completedJobs from by rw [h1]]
      exact hx

theorem cancelledJobs_mono (s : RegState) (e : Event) (x : String)
    (hx : x ∈ s.cancelledJobs) : x ∈ (step s e).cancelledJobs := by
  cases e with
  | purchase => exact hx
  | status po =>
    rw [show step s (.status po) = s from statusH_fst po s]
    exact hx
  | enqueue po i =>
    show x ∈ ((enqueueH po i s).1).cancelledJobs
    rw [enqueueH_cancelled]
    exact hx
  | fire j' p' =>
    rcases fireH_cases j' p' s with ⟨_, _, h3, _⟩ | ⟨_, _, _, h3, _⟩ <;>
      · rw [show (step s (.fire j' p')).cancelledJobs = s.cancelledJobs from h3]
        exact hx
  | cancel po =>
    rcases cancelH_cases po s with h1 | ⟨i, entry, hpo, hfind, h1⟩
    · rw [show step s (.cancel po) = s from h1]
      exact hx
    · show x ∈ ((cancelH po s).1).cancelledJobs
      rw [show ((cancelH po s).1).cancelledJobs = s.cancelledJobs ++ [i] from by
        rw [h1]]
      exact List.mem_append_left _ hx

/-! ### Claim theorems: id uniqueness -/

/-- C4 counterexample: `generateJobId` draws from `Math.random` with no
freshness check, so an enqueue can reuse an id.  On `dupIdTrace` the
second enqueue is admitted and returns `queued "a"` even though `a` is
already a completed key, leaving `a` in both the pending queue and the
completed map at once. -/
theorem dup_id_breaks_uniqueness :
    "a" ∈ pendingIds (run initState dupIdTrace) ∧
    "a" ∈ completedIds (run initState dupIdTrace) ∧
    (enqueueH (some "q") "a"
        (run initState [.enqueue (some "p") "a", .fire "a" "p"])).2 =
      .queued "a" := by
  decide

/-- C4 (amended): provided every enqueue draws an id fresh for the
state it runs in (which `Math.random` makes likely but does not
guarantee), every state reached from the initial state satisfies the
uniqueness invariant — ids are distinct within each collection and the
three collections are pairwise disjoint — and, unconditionally, ids
never leave the completed map or the cancelled list at any step. -/
theorem unique_collections_inv (es : List Event)
    (hes : goodTrace initState es = true) :
    RegInv (run initState es) ∧
    (∀ s e x, x ∈ completedIds s → x ∈ completedIds (step s e)) ∧
    (∀ s e x, x ∈ s.cancelledJobs → x ∈ (step s e).cancelledJobs) :=
  ⟨regInv_run es initState hes regInv_initState,
   completedIds_mono, cancelledJobs_mono⟩

/-- Closed witness for `unique_collections_inv` on a concrete fresh-id
trace. -/
theorem unique_collections_inv_witness :
    RegInv (run initState
      [.enqueue (some "sunset") "a", .fire "a" "sunset",
       .enqueue (some "sky") "b", .cancel (some "b")]) ∧
    "a" ∈ completedIds
      (step (run initState
        [.enqueue (some "sunset") "a", .fire "a" "sunset",
         .enqueue (some "sky") "b", .cancel (some "b")]) .purchase) := by
  have h := unique_collections_inv
    [.enqueue (some "sunset") "a", .fire "a" "sunset",
     .enqueue (some "sky") "b", .cancel (some "b")] (by decide)
  exact ⟨h.1, h.2.1 _ .purchase "a" (by decide)⟩

end ImageRouter
